import Mathlib

/-!
Shallow embedding of `src/main.py` (DevNet Inspector): the pydantic-v2
validated `AgentConfig` model, its `Target` sub-model, the `Environment`
and `LogLevel` enumerations, the `from_dict` factory, serialization
(`to_json` via `model_dump_json`, `to_yaml`), the `save`/`load` extension
dispatch, and the `add_target`/`remove_target`/assignment mutators.

Conventions of the embedding:
* Python runtime values that can appear in a construction mapping are the
  inductive `PyVal`; a Python dict is an association list `PyDict` (Python
  dicts preserve insertion order and have unique keys).
* A raised exception is an `Except.error` / an `Option` error component;
  Python exception propagation means the mutated-state component returned
  alongside an error is exactly the state reached before the raise.
* pydantic collects all field errors of one model construction into a
  single `ValidationError`; we model the error as the list of the names of
  the fields that failed (locs collapsed to the top-level field name).
* File writes and reads are abstracted: `save` returns the chosen format
  and the serialized document, `load` takes the parsed file content.
-/

namespace DevNet

/-- Characters stripped by Python `str.strip()` (ASCII whitespace; the
exotic unicode spaces Python also strips never occur in the claims). -/
def pySpace (c : Char) : Bool :=
  c = ' ' || c = '\t' || c = '\n' || c = '\r' || c = '\x0b' || c = '\x0c'

/-- `str.strip()` on the character list: drop leading and trailing runs
of whitespace. -/
def pyStripL (l : List Char) : List Char :=
  ((l.dropWhile pySpace).reverse.dropWhile pySpace).reverse

/-- Python `s.strip()`. -/
def pyStrip (s : String) : String := String.mk (pyStripL s.data)

/-- `class Environment(str, Enum)` from `src/main.py` lines 9-12.
Note the source values: `DEV = "dev"`, `QA = "QA"` (uppercase!),
`PROD = "prod"`. -/
inductive Environment where
  | DEV
  | QA
  | PROD
deriving DecidableEq, Repr

/-- The string value of each enumerant, exactly as in the source. -/
def Environment.value : Environment → String
  | .DEV => "dev"
  | .QA => "QA"
  | .PROD => "prod"

/-- pydantic validation of an `Environment` field: a string input is
matched against the enumeration values (no case folding). -/
def Environment.parse (s : String) : Option Environment :=
  if s = "dev" then some .DEV
  else if s = "QA" then some .QA
  else if s = "prod" then some .PROD
  else none

/-- `class LogLevel(str, Enum)` from `src/main.py` lines 14-19. -/
inductive LogLevel where
  | DEBUG
  | INFO
  | WARNING
  | ERROR
  | CRITICAL
deriving DecidableEq, Repr

/-- The string value of each `LogLevel` enumerant. -/
def LogLevel.value : LogLevel → String
  | .DEBUG => "DEBUG"
  | .INFO => "INFO"
  | .WARNING => "WARNING"
  | .ERROR => "ERROR"
  | .CRITICAL => "CRITICAL"

/-- pydantic validation of a `LogLevel` field by enumeration value. -/
def LogLevel.parse (s : String) : Option LogLevel :=
  if s = "DEBUG" then some .DEBUG
  else if s = "INFO" then some .INFO
  else if s = "WARNING" then some .WARNING
  else if s = "ERROR" then some .ERROR
  else if s = "CRITICAL" then some .CRITICAL
  else none

/-- The frozen `Target` pydantic model (`src/main.py` lines 21-39):
host string and port integer. Value equality, as for pydantic models. -/
structure Target where
  host : String
  port : Int
deriving DecidableEq, Repr

/-- Python runtime values a construction mapping can hold: strings,
integers, lists (tuples are modelled as lists, as `from_dict` treats
them identically), dicts, and already-constructed `Target` objects. -/
inductive PyVal where
  | str (s : String)
  | int (n : Int)
  | list (xs : List PyVal)
  | dict (kvs : List (String × PyVal))
  | target (t : Target)

/-- A Python dict: ordered association list with unique keys. -/
abbrev PyDict := List (String × PyVal)

/-- Validation of the `host` field of `Target`: must be a string that is
non-empty after stripping; the stored value is the stripped string
(`validate_host`, lines 27-32). -/
def stripNonEmpty : PyVal → Option String
  | .str s => if pyStrip s = "" then none else some (pyStrip s)
  | _ => none

/-- Validation of the `port` field of `Target`: an integer with
`ge=1, le=65535` (line 25). -/
def validatePort : PyVal → Option Int
  | .int n => if 1 ≤ n ∧ n ≤ 65535 then some n else none
  | _ => none

/-- `Target(host=..., port=...)`: pydantic validates both fields and
collects the failing field names into one ValidationError. -/
def mkTarget (h p : PyVal) : Except (List String) Target :=
  match stripNonEmpty h, validatePort p with
  | some hs, some pn => .ok { host := hs, port := pn }
  | some _, none => .error ["port"]
  | none, some _ => .error ["host"]
  | none, none => .error ["host", "port"]

/-- The error taxonomy raised by construction:
* `typeError`: iterating a non-iterable `targets` value (Python TypeError);
* `invalidTarget`: the `raise ValueError(f"Invalid target format: ...")`
  in `from_dict` (line 110);
* `targetError fs`: a pydantic ValidationError from a `Target(...)` call
  inside the `from_dict` loop, naming the failing Target fields;
* `validation fs`: a pydantic ValidationError from the `AgentConfig`
  constructor, naming the failing config fields. -/
inductive ConfigError where
  | typeError
  | invalidTarget
  | targetError (fields : List String)
  | validation (fields : List String)
deriving DecidableEq, Repr

/-- Python iteration over a value (`for target in config_dict['targets']`):
lists iterate their elements, strings their characters, dicts their keys;
integers and Target objects are not iterable (TypeError). -/
def pyIter : PyVal → Option (List PyVal)
  | .list xs => some xs
  | .str s => some (s.data.map (fun c => .str (String.mk [c])))
  | .dict kvs => some (kvs.map (fun kv => .str kv.1))
  | .int _ => none
  | .target _ => none

/-- One iteration of the `from_dict` target-conversion loop
(lines 104-110): a 2-element tuple/list becomes `Target(host, port)`,
a dict with both `host` and `port` keys becomes `Target(**target)`
(extra keys ignored, pydantic default), anything else raises
`ValueError("Invalid target format: ...")`. -/
def convTargetDict (kvs : List (String × PyVal)) : Except ConfigError Target :=
  match List.lookup "host" kvs, List.lookup "port" kvs with
  | some hv, some pv => (mkTarget hv pv).mapError ConfigError.targetError
  | _, _ => .error .invalidTarget

def convTarget : PyVal → Except ConfigError Target
  | .list [a, b] => (mkTarget a b).mapError ConfigError.targetError
  | .dict kvs => convTargetDict kvs
  | _ => .error .invalidTarget

/-- The whole conversion loop: stops at the first failing entry, as a
Python `for` loop with a `raise` does. -/
def convTargets : List PyVal → Except ConfigError (List Target)
  | [] => .ok []
  | x :: xs => do
    let t ← convTarget x
    let ts ← convTargets xs
    .ok (t :: ts)

/-- The `AgentConfig` pydantic model (`src/main.py` lines 41-65).
With `use_enum_values=True` the stored enum fields carry exactly the
string value of the enumerant; we store the enumerant itself, with
`Environment.value` / `LogLevel.value` the (injective) coercion to what
Python stores and serializes. -/
structure AgentConfig where
  environment : Environment
  scan_interval : Int
  modules : List String
  log_level : LogLevel
  targets : List Target
deriving DecidableEq, Repr

/-- The declared model fields; `model_config` has `extra='forbid'`
(line 44), so any other key is a validation error. -/
def allowedKeys : List String :=
  ["environment", "scan_interval", "modules", "log_level", "targets"]

/-- Validation of the required `environment` field: present and equal to
an enumeration value. Missing key, non-string value and unparseable
string all fail (each named `environment` in the error). -/
def envField (d : PyDict) : Option Environment :=
  match List.lookup "environment" d with
  | some (.str s) => Environment.parse s
  | _ => none

/-- Validation of `scan_interval`: default 60 when absent; an integer in
[1, 86400] (Field `ge=1, le=86400`, line 50, and `validate_scan_interval`,
lines 67-74, check the same range). -/
def scanField (d : PyDict) : Option Int :=
  match List.lookup "scan_interval" d with
  | none => some 60
  | some (.int n) => if 1 ≤ n ∧ n ≤ 86400 then some n else none
  | some _ => none

/-- Validate every element of a list, failing if any element fails. -/
def mapOption {α β : Type} (f : α → Option β) : List α → Option (List β)
  | [] => some []
  | x :: xs =>
    match f x, mapOption f xs with
    | some y, some ys => some (y :: ys)
    | _, _ => none

/-- Validation of `modules`: default `[]`; a list of strings, each
non-empty after stripping, stored stripped (`str_strip_whitespace=True`
plus `validate_modules`, lines 76-81). -/
def modulesField (d : PyDict) : Option (List String) :=
  match List.lookup "modules" d with
  | none => some []
  | some (.list xs) => mapOption stripNonEmpty xs
  | some _ => none

/-- Validation of `log_level`: default INFO; else an enumeration value. -/
def logField (d : PyDict) : Option LogLevel :=
  match List.lookup "log_level" d with
  | none => some LogLevel.INFO
  | some (.str s) => LogLevel.parse s
  | _ => none

/-- pydantic validation of one element of the `List[Target]` field: a
`Target` instance passes through unrevalidated (`revalidate_instances`
defaults to never, and `validate_targets`, lines 83-88, only checks
isinstance); a dict is coerced through the `Target` model; anything else
is a type error. -/
def targetItem : PyVal → Option Target
  | .target t => some t
  | .dict kvs =>
    match List.lookup "host" kvs, List.lookup "port" kvs with
    | some hv, some pv => (mkTarget hv pv).toOption
    | _, _ => none
  | _ => none

/-- Validation of `targets`: default `[]`; a list whose every element
validates as a `Target`. -/
def targetsField (d : PyDict) : Option (List Target) :=
  match List.lookup "targets" d with
  | none => some []
  | some (.list xs) => mapOption targetItem xs
  | some _ => none

/-- The keys of the mapping that are not model fields; with
`extra='forbid'` each produces an error named after the key. -/
def extraKeys (d : PyDict) : List String :=
  (d.map Prod.fst).filter (fun k => !(allowedKeys.contains k))

/-- Helper: the error-name contribution of one field validation. -/
def optErr {α : Type} (name : String) : Option α → List String
  | some _ => []
  | none => [name]

/-- All field errors of one `AgentConfig(**...)` call, in field order,
extra-key errors last. -/
def fieldErrs (d : PyDict) : List String :=
  optErr "environment" (envField d) ++ optErr "scan_interval" (scanField d) ++
  optErr "modules" (modulesField d) ++ optErr "log_level" (logField d) ++
  optErr "targets" (targetsField d) ++ extraKeys d

/-- `AgentConfig(**config_dict)`: pydantic validates every field and the
extra-key rule; if anything failed the call raises one ValidationError
collecting all the failures, otherwise every stored field is the
validated value. -/
def mkAgentConfig (d : PyDict) : Except (List String) AgentConfig :=
  if h : (envField d).isSome = true ∧ (scanField d).isSome = true ∧
      (modulesField d).isSome = true ∧ (logField d).isSome = true ∧
      (targetsField d).isSome = true ∧ extraKeys d = [] then
    .ok ⟨(envField d).get h.1, (scanField d).get h.2.1, (modulesField d).get h.2.2.1,
         (logField d).get h.2.2.2.1, (targetsField d).get h.2.2.2.2.1⟩
  else .error (fieldErrs d)

/-- Python dict item assignment `d[k] = v`: an existing key keeps its
position, a fresh key is appended. -/
def setKey : PyDict → String → PyVal → PyDict
  | [], k, v => [(k, v)]
  | (k1, v1) :: rest, k, v =>
    if k1 = k then (k, v) :: rest else (k1, v1) :: setKey rest k v

/-- Stage 3 of `from_dict`: the conversion loop ran to completion or
raised; on completion the mapping's `targets` entry is replaced in place
by the constructed `Target` objects and `cls(**config_dict)` runs. -/
def fromDictItems (d : PyDict) (items : List PyVal) :
    PyDict × Except ConfigError AgentConfig :=
  match convTargets items with
  | .error e => (d, .error e)
  | .ok ts =>
    (setKey d "targets" (.list (ts.map PyVal.target)),
     (mkAgentConfig (setKey d "targets" (.list (ts.map PyVal.target)))).mapError
       ConfigError.validation)

/-- Stage 2 of `from_dict`: iterate the `targets` value. -/
def fromDictConv (d : PyDict) (v : PyVal) :
    PyDict × Except ConfigError AgentConfig :=
  match pyIter v with
  | none => (d, .error .typeError)
  | some items => fromDictItems d items

/-- `AgentConfig.from_dict` (lines 99-113). Returns the final state of
the caller's mapping (the method mutates `config_dict['targets']` in
place before constructing) together with the construction outcome. -/
def fromDict (d : PyDict) : PyDict × Except ConfigError AgentConfig :=
  match List.lookup "targets" d with
  | none => (d, (mkAgentConfig d).mapError ConfigError.validation)
  | some v => fromDictConv d v

/-- The JSON documents this program writes (they only ever contain
strings, integers, arrays and objects). -/
inductive Json where
  | str (s : String)
  | int (n : Int)
  | arr (xs : List Json)
  | obj (kvs : List (String × Json))

/-- The JSON document produced by `to_json()` (line 90-91), i.e. by
`self.model_dump_json(indent=4)`. pydantic v2 serializes through the
core serializer, which does NOT call the Python-level `model_dump`
override of lines 160-164: each `Target` is therefore serialized as the
object with `host` and `port` keys, and the enum fields as their string
values, in field declaration order. -/
def toJsonValue (c : AgentConfig) : Json :=
  .obj [("environment", .str c.environment.value),
        ("scan_interval", .int c.scan_interval),
        ("modules", .arr (c.modules.map Json.str)),
        ("log_level", .str c.log_level.value),
        ("targets", .arr (c.targets.map
          (fun t => .obj [("host", .str t.host), ("port", .int t.port)])))]

/-- The document produced by `to_yaml()` (lines 93-97): built from the
overridden `model_dump`, whose `targets` are replaced by the 2-element
arrays `[host, port]`; `yaml.dump` sorts the keys alphabetically
(its default `sort_keys=True`). -/
def toYamlValue (c : AgentConfig) : Json :=
  .obj [("environment", .str c.environment.value),
        ("log_level", .str c.log_level.value),
        ("modules", .arr (c.modules.map Json.str)),
        ("scan_interval", .int c.scan_interval),
        ("targets", .arr (c.targets.map
          (fun t => .arr [.str t.host, .int t.port])))]

/-- The Python value obtained by `json.loads(c.to_json())`: the faithful
parse of the document `toJsonValue c` (JSON text round-trips exactly for
objects of strings, integers, arrays and objects). -/
def toJsonParsed (c : AgentConfig) : PyDict :=
  [("environment", .str c.environment.value),
   ("scan_interval", .int c.scan_interval),
   ("modules", .list (c.modules.map PyVal.str)),
   ("log_level", .str c.log_level.value),
   ("targets", .list (c.targets.map
     (fun t => .dict [("host", .str t.host), ("port", .int t.port)])))]

/-- `add_target` (lines 152-154): build a validated `Target`; if its
validation raises, the exception propagates before the append runs.
Returns the state after the call and the error, if any. -/
def addTarget (c : AgentConfig) (host : String) (port : Int) :
    AgentConfig × Option (List String) :=
  match mkTarget (.str host) (.int port) with
  | .error errs => (c, some errs)
  | .ok t => ({ c with targets := c.targets ++ [t] }, none)

/-- `remove_target` (lines 156-158): keep the targets that are not equal
to the given pair. The reassignment of `self.targets` is revalidated
(`validate_assignment=True`), but a list of `Target` instances always
passes `validate_targets`, so the operation never raises. -/
def removeTarget (c : AgentConfig) (host : String) (port : Int) : AgentConfig :=
  { c with targets := c.targets.filter (fun t => !(t.host == host && t.port == port)) }

/-- Direct assignment `config.scan_interval = v` under
`validate_assignment=True`: the value is validated like the field; on
failure the attribute keeps its prior value and the error is raised. -/
def setScanInterval (c : AgentConfig) (v : PyVal) : AgentConfig × Option (List String) :=
  match v with
  | .int n =>
    if 1 ≤ n ∧ n ≤ 86400 then ({ c with scan_interval := n }, none)
    else (c, some ["scan_interval"])
  | _ => (c, some ["scan_interval"])

/-- Direct assignment `config.environment = v` under
`validate_assignment=True`. -/
def setEnvironment (c : AgentConfig) (v : PyVal) : AgentConfig × Option (List String) :=
  match v with
  | .str s =>
    match Environment.parse s with
    | some e => ({ c with environment := e }, none)
    | none => (c, some ["environment"])
  | _ => (c, some ["environment"])

/-- `get_targets_as_tuples` (lines 148-150). -/
def getTargetsAsTuples (c : AgentConfig) : List (String × Int) :=
  c.targets.map (fun t => (t.host, t.port))

/-- Python `str.endswith(post)`: the character suffix test. -/
def strEndsWith (s post : String) : Bool :=
  decide (post.data.length ≤ s.data.length) &&
    (s.data.drop (s.data.length - post.data.length) == post.data)

/-- The two on-disk formats `save`/`load` dispatch on. -/
inductive FileFormat where
  | json
  | yaml
deriving DecidableEq, Repr

/-- `save` (lines 115-128), file writing abstracted: the extension
dispatch chooses the serializer, any other path raises
`ValueError("Unsupported file extension - must be .json or .yaml")`. -/
def save (c : AgentConfig) (path : String) : Except String (FileFormat × Json) :=
  if strEndsWith path ".json" then .ok (.json, toJsonValue c)
  else if strEndsWith path ".yaml" then .ok (.yaml, toYamlValue c)
  else .error "Unsupported file extension - must be .json or .yaml"

/-- `load` (lines 130-146), file reading and text parsing abstracted:
`parsed` is the mapping the file parsed to; both recognized extensions
run it through `from_dict`, any other path raises the same
unsupported-extension ValueError. -/
def load (path : String) (parsed : PyDict) :
    Except String (PyDict × Except ConfigError AgentConfig) :=
  if strEndsWith path ".json" then .ok (fromDict parsed)
  else if strEndsWith path ".yaml" then .ok (fromDict parsed)
  else .error "Unsupported file extension - must be .json or .yaml"

/-- A well-formed stored `Target`: host stripped and non-empty, port in
range — exactly what `Target` validation establishes. -/
def Target.Wf (t : Target) : Prop :=
  pyStrip t.host = t.host ∧ t.host ≠ "" ∧ 1 ≤ t.port ∧ t.port ≤ 65535

/-- A well-formed `AgentConfig`: every field satisfies its validated
invariant. -/
def AgentConfig.Wf (c : AgentConfig) : Prop :=
  1 ≤ c.scan_interval ∧ c.scan_interval ≤ 86400 ∧
  (∀ m ∈ c.modules, pyStrip m = m ∧ m ≠ "") ∧
  (∀ t ∈ c.targets, t.Wf)

/-- Does a serialized document encode its `targets` key as an array in
which every element is a 2-element array (the encoding the spec
prescribes), rather than as objects? -/
def isPair : Json → Bool
  | .arr [_, _] => true
  | _ => false

/-- Check the `targets` entry of a serialized config document. -/
def encodesTargetsAsPairs : Json → Bool
  | .obj kvs =>
    match List.lookup "targets" kvs with
    | some (.arr xs) => xs.all isPair
    | _ => false
  | _ => false

mutual
/-- The Python value `json.loads` produces from a JSON document. -/
def pyOfJson : Json → PyVal
  | .str s => .str s
  | .int n => .int n
  | .arr xs => .list (pyOfJsonList xs)
  | .obj kvs => .dict (pyOfJsonKVs kvs)
def pyOfJsonList : List Json → List PyVal
  | [] => []
  | x :: xs => pyOfJson x :: pyOfJsonList xs
def pyOfJsonKVs : List (String × Json) → List (String × PyVal)
  | [] => []
  | (k, v) :: rest => (k, pyOfJson v) :: pyOfJsonKVs rest
end

/-- `toJsonParsed` is indeed the parse of the `to_json()` document. -/
theorem toJsonParsed_eq (c : AgentConfig) :
    pyOfJson (toJsonValue c) = .dict (toJsonParsed c) := by
  cases c with
  | mk e s m l t =>
    simp only [toJsonValue, toJsonParsed, pyOfJson, pyOfJsonKVs, pyOfJsonList]
    induction m with
    | nil =>
      induction t with
      | nil => rfl
      | cons x xs ih => simp_all [pyOfJson, pyOfJsonList, pyOfJsonKVs]
    | cons x xs ih => simp_all [pyOfJson, pyOfJsonList, pyOfJsonKVs]

/-- Can every entry of the `targets` value of the mapping be converted by
the `from_dict` loop? (Trivially true when the key is absent.) -/
def targetsConvertible (d : PyDict) : Prop :=
  ∀ v, List.lookup "targets" d = some v →
    ∃ items ts, pyIter v = some items ∧ convTargets items = .ok ts

/-! ### Helper lemmas: stripping -/

theorem dropWhile_idem {α : Type} (p : α → Bool) (l : List α) :
    (l.dropWhile p).dropWhile p = l.dropWhile p := by
  induction l with
  | nil => rfl
  | cons x xs ih =>
    rw [List.dropWhile_cons]
    split
    · exact ih
    · rw [List.dropWhile_cons_of_neg (by assumption)]

theorem length_dropWhile_le {α : Type} (p : α → Bool) (l : List α) :
    (l.dropWhile p).length ≤ l.length := by
  induction l with
  | nil => exact Nat.le_refl 0
  | cons x xs ih =>
    rw [List.dropWhile_cons]
    split
    · exact Nat.le_trans ih (Nat.le_succ _)
    · exact Nat.le_refl _

/-- A left factor of a list with no strippable head itself has no
strippable head. -/
theorem dropWhile_eq_self_left {α : Type} (p : α → Bool) {pre post l : List α}
    (hl : pre ++ post = l) (hself : l.dropWhile p = l) :
    pre.dropWhile p = pre := by
  cases pre with
  | nil => rfl
  | cons x xs =>
    have hx : p x = false := by
      by_contra hpx
      have hpx : p x = true := by
        cases h : p x
        · exact absurd h hpx
        · rfl
      have h1 : l.dropWhile p = (xs ++ post).dropWhile p := by
        rw [← hl, List.cons_append, List.dropWhile_cons_of_pos hpx]
      have h2 : l.length = (xs ++ post).length + 1 := by
        rw [← hl]; simp [List.length_append]
      have h3 := length_dropWhile_le p (xs ++ post)
      rw [hself] at h1
      have := congrArg List.length h1
      omega
    rw [List.dropWhile_cons_of_neg (by simp [hx])]

theorem pyStripL_idem (l : List Char) : pyStripL (pyStripL l) = pyStripL l := by
  have h1 : (l.dropWhile pySpace).dropWhile pySpace = l.dropWhile pySpace :=
    dropWhile_idem pySpace l
  have hdec : ((l.dropWhile pySpace).reverse.dropWhile pySpace).reverse ++
      ((l.dropWhile pySpace).reverse.takeWhile pySpace).reverse = l.dropWhile pySpace := by
    rw [← List.reverse_append, List.takeWhile_append_dropWhile, List.reverse_reverse]
  have h2 : (((l.dropWhile pySpace).reverse.dropWhile pySpace).reverse).dropWhile pySpace =
      ((l.dropWhile pySpace).reverse.dropWhile pySpace).reverse :=
    dropWhile_eq_self_left pySpace hdec h1
  show pyStripL (((l.dropWhile pySpace).reverse.dropWhile pySpace).reverse) = _
  unfold pyStripL
  rw [h2, List.reverse_reverse, dropWhile_idem]

theorem pyStrip_idem (s : String) : pyStrip (pyStrip s) = pyStrip s := by
  show String.mk (pyStripL (String.mk (pyStripL s.data)).data) = _
  rw [show (String.mk (pyStripL s.data)).data = pyStripL s.data from rfl, pyStripL_idem]
  rfl

/-- What a successful host/module validation establishes about the
stored (stripped) string. -/
theorem stripNonEmpty_some {v : PyVal} {s : String}
    (h : stripNonEmpty v = some s) : pyStrip s = s ∧ s ≠ "" := by
  cases v with
  | str s0 =>
    simp only [stripNonEmpty] at h
    by_cases he : pyStrip s0 = ""
    · simp [he] at h
    · simp [he] at h
      subst h
      exact ⟨pyStrip_idem s0, he⟩
  | int n => simp [stripNonEmpty] at h
  | list xs => simp [stripNonEmpty] at h
  | dict kvs => simp [stripNonEmpty] at h
  | target t => simp [stripNonEmpty] at h

theorem validatePort_some {v : PyVal} {n : Int}
    (h : validatePort v = some n) : 1 ≤ n ∧ n ≤ 65535 := by
  cases v with
  | int m =>
    simp only [validatePort] at h
    by_cases hr : 1 ≤ m ∧ m ≤ 65535
    · simp [hr] at h; exact h ▸ hr
    · simp [hr] at h
  | str s => simp [validatePort] at h
  | list xs => simp [validatePort] at h
  | dict kvs => simp [validatePort] at h
  | target t => simp [validatePort] at h

theorem mkTarget_ok_wf {h p : PyVal} {t : Target}
    (hok : mkTarget h p = .ok t) : t.Wf := by
  unfold mkTarget at hok
  cases hh : stripNonEmpty h with
  | none => cases hp : validatePort p <;> simp [hh, hp] at hok
  | some hs =>
    cases hp : validatePort p with
    | none => simp [hh, hp] at hok
    | some pn =>
      simp [hh, hp] at hok
      obtain ⟨h1, h2⟩ := stripNonEmpty_some hh
      obtain ⟨h3, h4⟩ := validatePort_some hp
      subst hok
      exact ⟨h1, h2, h3, h4⟩

/-! ### Helper lemmas: dict operations -/

theorem lookup_setKey_self (d : PyDict) (k : String) (v : PyVal) :
    List.lookup k (setKey d k v) = some v := by
  induction d with
  | nil => simp [setKey, List.lookup]
  | cons kv rest ih =>
    obtain ⟨k1, v1⟩ := kv
    by_cases h : k1 = k
    · simp [setKey, h, List.lookup]
    · simp only [setKey, if_neg h]
      simp only [List.lookup]
      have hne : (k == k1) = false := beq_eq_false_iff_ne.mpr (fun he => h he.symm)
      simp [hne, ih]

theorem lookup_setKey_ne (d : PyDict) (k k2 : String) (v : PyVal)
    (h : k2 ≠ k) : List.lookup k2 (setKey d k v) = List.lookup k2 d := by
  induction d with
  | nil => simp [setKey, List.lookup, beq_eq_false_iff_ne.mpr h]
  | cons kv rest ih =>
    obtain ⟨k1, v1⟩ := kv
    by_cases h1 : k1 = k
    · subst h1
      simp [setKey, List.lookup, beq_eq_false_iff_ne.mpr h]
    · simp only [setKey, if_neg h1]
      simp only [List.lookup]
      by_cases h2 : k2 = k1
      · simp [h2]
      · simp [beq_eq_false_iff_ne.mpr h2, ih]

theorem extraKeys_setKey (d : PyDict) (k : String) (v : PyVal)
    (h : k ∈ allowedKeys) : extraKeys (setKey d k v) = extraKeys d := by
  have hk : allowedKeys.contains k = true := by
    simp [allowedKeys] at h
    rcases h with rfl | rfl | rfl | rfl | rfl <;> rfl
  induction d with
  | nil => simp [setKey, extraKeys, List.filter, hk, h]
  | cons kv rest ih =>
    obtain ⟨k1, v1⟩ := kv
    by_cases h1 : k1 = k
    · subst h1
      simp [setKey, extraKeys]
    · simp only [setKey, if_neg h1]
      simp only [extraKeys, List.map_cons, List.filter_cons] at ih ⊢
      rw [ih]
/-! ### Helper lemmas: constructor inversion -/

theorem mkAgentConfig_ok_iff (d : PyDict) (c : AgentConfig) :
    mkAgentConfig d = .ok c ↔
      envField d = some c.environment ∧ scanField d = some c.scan_interval ∧
      modulesField d = some c.modules ∧ logField d = some c.log_level ∧
      targetsField d = some c.targets ∧ extraKeys d = [] := by
  obtain ⟨ce, cs, cm, cl, ct⟩ := c
  unfold mkAgentConfig
  split
  · rename_i hc
    obtain ⟨h1, h2, h3, h4, h5, h6⟩ := hc
    rw [Except.ok.injEq, AgentConfig.mk.injEq]
    constructor
    · rintro ⟨r1, r2, r3, r4, r5⟩
      refine ⟨?_, ?_, ?_, ?_, ?_, h6⟩
      · rw [← r1, Option.some_get]
      · rw [← r2, Option.some_get]
      · rw [← r3, Option.some_get]
      · rw [← r4, Option.some_get]
      · rw [← r5, Option.some_get]
    · rintro ⟨e1, e2, e3, e4, e5, _⟩
      refine ⟨?_, ?_, ?_, ?_, ?_⟩ <;> simp only [e1, e2, e3, e4, e5, Option.get_some]
  · rename_i hc
    constructor
    · intro h
      exact Except.noConfusion h
    · rintro ⟨e1, e2, e3, e4, e5, e6⟩
      exact absurd ⟨by simp [e1], by simp [e2], by simp [e3], by simp [e4],
        by simp [e5], e6⟩ hc

theorem mkAgentConfig_error {d : PyDict} {errs : List String}
    (h : mkAgentConfig d = .error errs) : errs = fieldErrs d := by
  unfold mkAgentConfig at h
  split at h
  · exact Except.noConfusion h
  · exact (Except.error.inj h).symm

theorem mkAgentConfig_error_of_extra {d : PyDict}
    (h : extraKeys d ≠ []) : mkAgentConfig d = .error (fieldErrs d) := by
  unfold mkAgentConfig
  split
  · rename_i hc
    exact absurd hc.2.2.2.2.2 h
  · rfl

theorem scanField_some_range {d : PyDict} {n : Int}
    (h : scanField d = some n) : 1 ≤ n ∧ n ≤ 86400 := by
  unfold scanField at h
  split at h
  · have h60 := Option.some.inj h
    omega
  · rename_i m
    split at h
    · rename_i hr
      have hmn := Option.some.inj h
      omega
    · exact Option.noConfusion h
  · exact Option.noConfusion h

theorem mapOption_stripNonEmpty_wf {xs : List PyVal} {ms : List String}
    (h : mapOption stripNonEmpty xs = some ms) :
    ∀ m ∈ ms, pyStrip m = m ∧ m ≠ "" := by
  induction xs generalizing ms with
  | nil =>
    have he : ([] : List String) = ms := Option.some.inj h
    subst he
    intro m hm
    cases hm
  | cons x xs ih =>
    unfold mapOption at h
    cases hy : stripNonEmpty x with
    | none => rw [hy] at h; exact absurd h (by simp)
    | some y =>
      cases hys : mapOption stripNonEmpty xs with
      | none => rw [hy, hys] at h; exact absurd h (by simp)
      | some ys =>
        rw [hy, hys] at h
        have hc : y :: ys = ms := Option.some.inj h
        subst hc
        intro m hm
        rcases List.mem_cons.mp hm with rfl | hmem
        · exact stripNonEmpty_some hy
        · exact ih hys m hmem

theorem modulesField_some_wf {d : PyDict} {ms : List String}
    (h : modulesField d = some ms) : ∀ m ∈ ms, pyStrip m = m ∧ m ≠ "" := by
  revert h
  unfold modulesField
  cases List.lookup "modules" d with
  | none =>
    intro h
    have he : ([] : List String) = ms := Option.some.inj h
    subst he
    intro m hm
    cases hm
  | some v =>
    cases v with
    | list xs => intro h; exact mapOption_stripNonEmpty_wf h
    | str s => intro h; exact Option.noConfusion h
    | int n => intro h; exact Option.noConfusion h
    | dict kvs => intro h; exact Option.noConfusion h
    | target t => intro h; exact Option.noConfusion h

theorem mapOption_targetItem_map_target (ts : List Target) :
    mapOption targetItem (ts.map PyVal.target) = some ts := by
  induction ts with
  | nil => rfl
  | cons t ts ih =>
    rw [List.map_cons]
    unfold mapOption
    rw [ih]
    rfl

/-! ### Helper lemmas: from_dict stages -/

theorem fromDict_none {d : PyDict} (h : List.lookup "targets" d = none) :
    fromDict d = (d, (mkAgentConfig d).mapError ConfigError.validation) := by
  unfold fromDict
  rw [h]

theorem fromDict_some {d : PyDict} {v : PyVal}
    (h : List.lookup "targets" d = some v) : fromDict d = fromDictConv d v := by
  unfold fromDict
  rw [h]

theorem fromDictConv_none {d : PyDict} {v : PyVal} (h : pyIter v = none) :
    fromDictConv d v = (d, .error .typeError) := by
  unfold fromDictConv
  rw [h]

theorem fromDictConv_some {d : PyDict} {v : PyVal} {items : List PyVal}
    (h : pyIter v = some items) : fromDictConv d v = fromDictItems d items := by
  unfold fromDictConv
  rw [h]

theorem fromDictItems_error {d : PyDict} {items : List PyVal} {e : ConfigError}
    (h : convTargets items = .error e) : fromDictItems d items = (d, .error e) := by
  unfold fromDictItems
  rw [h]

theorem fromDictItems_ok {d : PyDict} {items : List PyVal} {ts : List Target}
    (h : convTargets items = .ok ts) :
    fromDictItems d items =
      (setKey d "targets" (.list (ts.map PyVal.target)),
       (mkAgentConfig (setKey d "targets" (.list (ts.map PyVal.target)))).mapError
         ConfigError.validation) := by
  unfold fromDictItems
  rw [h]

theorem mapError_eq_ok {ε ε2 α : Type} {f : ε → ε2} {x : Except ε α} {a : α} :
    x.mapError f = .ok a ↔ x = .ok a := by
  cases x <;> simp [Except.mapError]

theorem mapError_eq_error {ε ε2 α : Type} {f : ε → ε2} {x : Except ε α} {e2 : ε2} :
    x.mapError f = .error e2 ↔ ∃ e, x = .error e ∧ e2 = f e := by
  cases x <;> simp [Except.mapError, eq_comm]

/-! ### Helper lemmas: conversion well-formedness -/

theorem convTarget_ok_wf {v : PyVal} {t : Target}
    (h : convTarget v = .ok t) : t.Wf := by
  cases v with
  | str s => exact Except.noConfusion h
  | int n => exact Except.noConfusion h
  | target t0 => exact Except.noConfusion h
  | dict kvs =>
    have h2 : convTargetDict kvs = .ok t := h
    unfold convTargetDict at h2
    cases hh : List.lookup "host" kvs <;> cases hp : List.lookup "port" kvs <;>
      rw [hh, hp] at h2
    · exact Except.noConfusion h2
    · exact Except.noConfusion h2
    · exact Except.noConfusion h2
    · exact mkTarget_ok_wf (mapError_eq_ok.mp h2)
  | list xs =>
    rcases xs with _ | ⟨a, _ | ⟨b, _ | ⟨c0, rest⟩⟩⟩
    · exact Except.noConfusion h
    · exact Except.noConfusion h
    · exact mkTarget_ok_wf (mapError_eq_ok.mp h)
    · exact Except.noConfusion h

theorem convTargets_ok_wf {items : List PyVal} {ts : List Target}
    (h : convTargets items = .ok ts) : ∀ t ∈ ts, t.Wf := by
  induction items generalizing ts with
  | nil =>
    have he : ([] : List Target) = ts := Except.ok.inj h
    subst he
    intro t ht
    cases ht
  | cons x xs ih =>
    unfold convTargets at h
    cases hc : convTarget x with
    | error e => rw [hc] at h; exact Except.noConfusion h
    | ok t0 =>
      rw [hc] at h
      cases hcs : convTargets xs with
      | error e => rw [hcs] at h; exact Except.noConfusion h
      | ok ts0 =>
        rw [hcs] at h
        have he : t0 :: ts0 = ts := Except.ok.inj h
        subst he
        intro t ht
        rcases List.mem_cons.mp ht with rfl | hm
        · exact convTarget_ok_wf hc
        · exact ih hcs t hm

/-- A successful `from_dict` yields a configuration whose every field
satisfies its validated invariant. -/
theorem fromDict_ok_wf {d : PyDict} {c : AgentConfig}
    (h : (fromDict d).2 = .ok c) : c.Wf := by
  cases hl : List.lookup "targets" d with
  | none =>
    rw [fromDict_none hl] at h
    have hmk : mkAgentConfig d = .ok c := mapError_eq_ok.mp h
    rw [mkAgentConfig_ok_iff] at hmk
    obtain ⟨he, hs, hm2, hlg, ht, hx⟩ := hmk
    obtain ⟨r1, r2⟩ := scanField_some_range hs
    refine ⟨r1, r2, modulesField_some_wf hm2, ?_⟩
    unfold targetsField at ht
    rw [hl] at ht
    have ht2 : some ([] : List Target) = some c.targets := ht
    have he2 : ([] : List Target) = c.targets := Option.some.inj ht2
    rw [← he2]
    intro t ht3
    cases ht3
  | some v =>
    rw [fromDict_some hl] at h
    cases hi : pyIter v with
    | none => rw [fromDictConv_none hi] at h; exact Except.noConfusion h
    | some items =>
      rw [fromDictConv_some hi] at h
      cases hcv : convTargets items with
      | error e => rw [fromDictItems_error hcv] at h; exact Except.noConfusion h
      | ok ts =>
        rw [fromDictItems_ok hcv] at h
        have hmk : mkAgentConfig (setKey d "targets" (.list (ts.map PyVal.target)))
            = .ok c := mapError_eq_ok.mp h
        rw [mkAgentConfig_ok_iff] at hmk
        obtain ⟨he, hs, hm2, hlg, ht, hx⟩ := hmk
        obtain ⟨r1, r2⟩ := scanField_some_range hs
        refine ⟨r1, r2, modulesField_some_wf hm2, ?_⟩
        unfold targetsField at ht
        rw [lookup_setKey_self] at ht
        have ht2 : mapOption targetItem (ts.map PyVal.target) = some c.targets := ht
        rw [mapOption_targetItem_map_target] at ht2
        have hts : ts = c.targets := Option.some.inj ht2
        rw [← hts]
        exact convTargets_ok_wf hcv

/-! ### Helper lemmas: serialization round-trip -/

theorem environment_parse_value (e : Environment) :
    Environment.parse e.value = some e := by
  cases e <;> rfl

theorem logLevel_parse_value (l : LogLevel) :
    LogLevel.parse l.value = some l := by
  cases l <;> rfl

theorem stripNonEmpty_of_wf {m : String} (h1 : pyStrip m = m) (h2 : m ≠ "") :
    stripNonEmpty (.str m) = some m := by
  show (if pyStrip m = "" then none else some (pyStrip m)) = some m
  rw [h1, if_neg h2]

theorem mapOption_stripNonEmpty_map_str (ms : List String)
    (h : ∀ m ∈ ms, pyStrip m = m ∧ m ≠ "") :
    mapOption stripNonEmpty (ms.map PyVal.str) = some ms := by
  induction ms with
  | nil => rfl
  | cons m ms ih =>
    rw [List.map_cons]
    unfold mapOption
    obtain ⟨w1, w2⟩ := h m (List.mem_cons_self m ms)
    rw [stripNonEmpty_of_wf w1 w2,
      ih (fun x hx => h x (List.mem_cons_of_mem _ hx))]

theorem mkTarget_of_wf {t : Target} (hw : t.Wf) :
    mkTarget (.str t.host) (.int t.port) = .ok t := by
  obtain ⟨w1, w2, w3, w4⟩ := hw
  have hvp : validatePort (.int t.port) = some t.port := by
    show (if 1 ≤ t.port ∧ t.port ≤ 65535 then some t.port else none) = some t.port
    rw [if_pos ⟨w3, w4⟩]
  unfold mkTarget
  rw [stripNonEmpty_of_wf w1 w2, hvp]

theorem convTargets_map_dict (ts : List Target) (h : ∀ t ∈ ts, t.Wf) :
    convTargets (ts.map
      (fun t => PyVal.dict [("host", .str t.host), ("port", .int t.port)])) = .ok ts := by
  induction ts with
  | nil => rfl
  | cons t ts ih =>
    rw [List.map_cons]
    unfold convTargets
    have hct : convTarget (.dict [("host", .str t.host), ("port", .int t.port)]) = .ok t := by
      show convTargetDict [("host", .str t.host), ("port", .int t.port)] = .ok t
      show (mkTarget (.str t.host) (.int t.port)).mapError ConfigError.targetError = .ok t
      rw [mkTarget_of_wf (h t (List.mem_cons_self t ts))]
      rfl
    rw [hct, ih (fun t2 ht2 => h t2 (List.mem_cons_of_mem _ ht2))]
    rfl

/-- Parsing the `to_json()` output back and running it through
`from_dict` reconstructs a well-formed configuration exactly. -/
theorem fromDict_toJsonParsed {c : AgentConfig} (hw : c.Wf) :
    (fromDict (toJsonParsed c)).2 = .ok c := by
  obtain ⟨r1, r2, hm, htg⟩ := hw
  have hl : List.lookup "targets" (toJsonParsed c) =
      some (.list (c.targets.map
        (fun t => PyVal.dict [("host", .str t.host), ("port", .int t.port)]))) := rfl
  rw [fromDict_some hl]
  have hi : pyIter (PyVal.list (c.targets.map
      (fun t => PyVal.dict [("host", .str t.host), ("port", .int t.port)]))) =
      some (c.targets.map
        (fun t => PyVal.dict [("host", .str t.host), ("port", .int t.port)])) := rfl
  rw [fromDictConv_some hi]
  rw [fromDictItems_ok (convTargets_map_dict c.targets htg)]
  show (mkAgentConfig (setKey (toJsonParsed c) "targets"
      (.list (c.targets.map PyVal.target)))).mapError ConfigError.validation = .ok c
  rw [mapError_eq_ok, mkAgentConfig_ok_iff]
  have hd2 : setKey (toJsonParsed c) "targets" (.list (c.targets.map PyVal.target)) =
      [("environment", .str c.environment.value),
       ("scan_interval", .int c.scan_interval),
       ("modules", .list (c.modules.map PyVal.str)),
       ("log_level", .str c.log_level.value),
       ("targets", .list (c.targets.map PyVal.target))] := rfl
  rw [hd2]
  refine ⟨?_, ?_, ?_, ?_, ?_, ?_⟩
  · show Environment.parse c.environment.value = some c.environment
    exact environment_parse_value c.environment
  · show (if 1 ≤ c.scan_interval ∧ c.scan_interval ≤ 86400
        then some c.scan_interval else none) = some c.scan_interval
    rw [if_pos ⟨r1, r2⟩]
  · show mapOption stripNonEmpty (c.modules.map PyVal.str) = some c.modules
    exact mapOption_stripNonEmpty_map_str c.modules hm
  · show LogLevel.parse c.log_level.value = some c.log_level
    exact logLevel_parse_value c.log_level
  · show mapOption targetItem (c.targets.map PyVal.target) = some c.targets
    exact mapOption_targetItem_map_target c.targets
  · rfl

/-! ### Helper lemmas: field lookups through setKey, error membership -/

theorem envField_setKey (d : PyDict) (x : PyVal) :
    envField (setKey d "targets" x) = envField d := by
  unfold envField
  rw [lookup_setKey_ne d "targets" "environment" x (by decide)]

theorem scanField_setKey (d : PyDict) (x : PyVal) :
    scanField (setKey d "targets" x) = scanField d := by
  unfold scanField
  rw [lookup_setKey_ne d "targets" "scan_interval" x (by decide)]

theorem modulesField_setKey (d : PyDict) (x : PyVal) :
    modulesField (setKey d "targets" x) = modulesField d := by
  unfold modulesField
  rw [lookup_setKey_ne d "targets" "modules" x (by decide)]

theorem logField_setKey (d : PyDict) (x : PyVal) :
    logField (setKey d "targets" x) = logField d := by
  unfold logField
  rw [lookup_setKey_ne d "targets" "log_level" x (by decide)]

theorem extraKeys_setKey_targets (d : PyDict) (x : PyVal) :
    extraKeys (setKey d "targets" x) = extraKeys d :=
  extraKeys_setKey d "targets" x (by decide)

theorem mem_fieldErrs_env {d : PyDict} (h : envField d = none) :
    "environment" ∈ fieldErrs d := by
  unfold fieldErrs
  rw [h]
  simp [optErr]

theorem mem_fieldErrs_scan {d : PyDict} (h : scanField d = none) :
    "scan_interval" ∈ fieldErrs d := by
  unfold fieldErrs
  rw [h]
  simp [optErr]

theorem mem_fieldErrs_modules {d : PyDict} (h : modulesField d = none) :
    "modules" ∈ fieldErrs d := by
  unfold fieldErrs
  rw [h]
  simp [optErr]

theorem mem_fieldErrs_log {d : PyDict} (h : logField d = none) :
    "log_level" ∈ fieldErrs d := by
  unfold fieldErrs
  rw [h]
  simp [optErr]

theorem mem_fieldErrs_extra {d : PyDict} {k : String} (h : k ∈ extraKeys d) :
    k ∈ fieldErrs d := by
  unfold fieldErrs
  exact List.mem_append_right _ h

theorem fromDict_ok_inv {d : PyDict} {c : AgentConfig}
    (h : (fromDict d).2 = .ok c) :
    (List.lookup "targets" d = none ∧ mkAgentConfig d = .ok c) ∨
    (∃ v items ts, List.lookup "targets" d = some v ∧ pyIter v = some items ∧
      convTargets items = .ok ts ∧
      mkAgentConfig (setKey d "targets" (.list (ts.map PyVal.target))) = .ok c) := by
  cases hl : List.lookup "targets" d with
  | none =>
    rw [fromDict_none hl] at h
    exact Or.inl ⟨rfl, mapError_eq_ok.mp h⟩
  | some v =>
    rw [fromDict_some hl] at h
    cases hi : pyIter v with
    | none => rw [fromDictConv_none hi] at h; exact Except.noConfusion h
    | some items =>
      rw [fromDictConv_some hi] at h
      cases hcv : convTargets items with
      | error e => rw [fromDictItems_error hcv] at h; exact Except.noConfusion h
      | ok ts =>
        rw [fromDictItems_ok hcv] at h
        exact Or.inr ⟨v, items, ts, rfl, hi, hcv, mapError_eq_ok.mp h⟩

theorem envField_ext {d1 d2 : PyDict}
    (h : List.lookup "environment" d1 = List.lookup "environment" d2) :
    envField d1 = envField d2 := by
  unfold envField
  rw [h]

theorem scanField_ext {d1 d2 : PyDict}
    (h : List.lookup "scan_interval" d1 = List.lookup "scan_interval" d2) :
    scanField d1 = scanField d2 := by
  unfold scanField
  rw [h]

theorem modulesField_ext {d1 d2 : PyDict}
    (h : List.lookup "modules" d1 = List.lookup "modules" d2) :
    modulesField d1 = modulesField d2 := by
  unfold modulesField
  rw [h]

theorem logField_ext {d1 d2 : PyDict}
    (h : List.lookup "log_level" d1 = List.lookup "log_level" d2) :
    logField d1 = logField d2 := by
  unfold logField
  rw [h]

theorem targetsField_ext {d1 d2 : PyDict}
    (h : List.lookup "targets" d1 = List.lookup "targets" d2) :
    targetsField d1 = targetsField d2 := by
  unfold targetsField
  rw [h]

theorem scanField_of_lookup_int {d : PyDict} {n : Int}
    (h : List.lookup "scan_interval" d = some (.int n)) :
    scanField d = if 1 ≤ n ∧ n ≤ 86400 then some n else none := by
  unfold scanField
  rw [h]

theorem scanField_of_lookup_none {d : PyDict}
    (h : List.lookup "scan_interval" d = none) : scanField d = some 60 := by
  unfold scanField
  rw [h]


theorem convTarget_error_shape {v : PyVal} {e : ConfigError}
    (h : convTarget v = .error e) :
    e = .invalidTarget ∨ ∃ fs, e = .targetError fs := by
  cases v with
  | str s => exact Or.inl (Except.error.inj h).symm
  | int n => exact Or.inl (Except.error.inj h).symm
  | target t0 => exact Or.inl (Except.error.inj h).symm
  | dict kvs =>
    have h2 : convTargetDict kvs = .error e := h
    unfold convTargetDict at h2
    cases hh : List.lookup "host" kvs <;> cases hp : List.lookup "port" kvs <;>
      rw [hh, hp] at h2
    · exact Or.inl (Except.error.inj h2).symm
    · exact Or.inl (Except.error.inj h2).symm
    · exact Or.inl (Except.error.inj h2).symm
    · rename_i hv pv
      have h3 : (mkTarget hv pv).mapError ConfigError.targetError = .error e := h2
      obtain ⟨fs, hmk, hfe⟩ := mapError_eq_error.mp h3
      exact Or.inr ⟨fs, hfe⟩
  | list xs =>
    rcases xs with _ | ⟨a, _ | ⟨b, _ | ⟨c0, rest⟩⟩⟩
    · exact Or.inl (Except.error.inj h).symm
    · exact Or.inl (Except.error.inj h).symm
    · have h2 : (mkTarget a b).mapError ConfigError.targetError = .error e := h
      obtain ⟨fs, hmk, hfe⟩ := mapError_eq_error.mp h2
      exact Or.inr ⟨fs, hfe⟩
    · exact Or.inl (Except.error.inj h).symm

theorem convTargets_error_shape {items : List PyVal} {e : ConfigError}
    (h : convTargets items = .error e) :
    e = .invalidTarget ∨ ∃ fs, e = .targetError fs := by
  induction items generalizing e with
  | nil => exact Except.noConfusion h
  | cons x xs ih =>
    unfold convTargets at h
    cases hc : convTarget x with
    | error e0 =>
      rw [hc] at h
      have he : e0 = e := Except.error.inj h
      exact he ▸ convTarget_error_shape hc
    | ok t0 =>
      rw [hc] at h
      cases hcs : convTargets xs with
      | error e1 =>
        rw [hcs] at h
        have he : e1 = e := Except.error.inj h
        exact he ▸ ih hcs
      | ok ts0 => rw [hcs] at h; exact Except.noConfusion h


/-! ### Claim theorems -/

/-- C1: for every valid construction mapping, building an `AgentConfig`,
serializing it with `to_json()`, parsing the JSON text back into a
mapping and constructing again via `from_dict` yields a configuration
equal to the original in all five fields. -/
theorem C1_roundtrip (M : PyDict) (c : AgentConfig)
    (h : (fromDict M).2 = .ok c) : (fromDict (toJsonParsed c)).2 = .ok c :=
  fromDict_toJsonParsed (fromDict_ok_wf h)

/-- Witness for C1 at a concrete mapping. -/
theorem C1_roundtrip_witness :
    (fromDict [("environment", PyVal.str "dev"),
      ("targets", PyVal.list [PyVal.list [PyVal.str "192.168.1.1", PyVal.int 8080]])]).2 =
      .ok ⟨.DEV, 60, [], .INFO, [⟨"192.168.1.1", 8080⟩]⟩ ∧
    (fromDict (toJsonParsed ⟨.DEV, 60, [], .INFO, [⟨"192.168.1.1", 8080⟩]⟩)).2 =
      .ok ⟨.DEV, 60, [], .INFO, [⟨"192.168.1.1", 8080⟩]⟩ :=
  ⟨rfl, C1_roundtrip [("environment", PyVal.str "dev"),
      ("targets", PyVal.list [PyVal.list [PyVal.str "192.168.1.1", PyVal.int 8080]])]
      ⟨.DEV, 60, [], .INFO, [⟨"192.168.1.1", 8080⟩]⟩ rfl⟩

/-- C2 (code bug evidence): `to_json()` goes through pydantic v2
`model_dump_json`, which bypasses the Python-level `model_dump`
override, so each target is serialized as the object with `host`/`port`
keys — not as the 2-element array `[host, port]` the spec prescribes
(and which `to_yaml()` does produce). Evaluated at the configuration
built from the spec scenario mapping. -/
theorem C2_to_json_targets_encoding :
    (fromDict [("environment", PyVal.str "dev"),
       ("targets", PyVal.list [PyVal.list [PyVal.str "192.168.1.1", PyVal.int 8080]])]).2 =
      .ok ⟨.DEV, 60, [], .INFO, [⟨"192.168.1.1", 8080⟩]⟩ ∧
    toJsonValue ⟨.DEV, 60, [], .INFO, [⟨"192.168.1.1", 8080⟩]⟩ =
      .obj [("environment", .str "dev"), ("scan_interval", .int 60),
            ("modules", .arr []), ("log_level", .str "INFO"),
            ("targets", .arr [.obj [("host", .str "192.168.1.1"),
                                    ("port", .int 8080)]])] ∧
    encodesTargetsAsPairs
      (toJsonValue ⟨.DEV, 60, [], .INFO, [⟨"192.168.1.1", 8080⟩]⟩) = false ∧
    encodesTargetsAsPairs
      (toYamlValue ⟨.DEV, 60, [], .INFO, [⟨"192.168.1.1", 8080⟩]⟩) = true :=
  ⟨rfl, rfl, rfl, rfl⟩

/-- C3 counterexample: the source has `QA = "QA"` (uppercase), so
constructing from a mapping with environment `"qa"` fails with a
validation error naming `environment`, contrary to the claim. -/
theorem C3_counterexample :
    (fromDict [("environment", PyVal.str "qa")]).2 =
      .error (.validation ["environment"]) := rfl

/-- C3 amended: the `Environment` enumeration accepts exactly the three
values `dev`, `QA` and `prod` (the QA enumerant is uppercase); each
enumerant parses back from its stored textual value; and constructing
with environment `"QA"` succeeds. -/
theorem C3_environment_values :
    (∀ s : String, (Environment.parse s).isSome = true ↔
      (s = "dev" ∨ s = "QA" ∨ s = "prod")) ∧
    (∀ e : Environment, Environment.parse e.value = some e) ∧
    (fromDict [("environment", PyVal.str "QA")]).2 =
      .ok ⟨.QA, 60, [], .INFO, []⟩ := by
  refine ⟨?_, environment_parse_value, rfl⟩
  intro s
  unfold Environment.parse
  by_cases h1 : s = "dev" <;> by_cases h2 : s = "QA" <;> by_cases h3 : s = "prod" <;>
    simp [h1, h2, h3]

/-- C4 counterexample: `remove_target` removes ALL pairs equal to the
argument, so when the pair was already present before the `add`, the
add-then-remove sequence does not restore the pre-add state. -/
theorem C4_counterexample :
    removeTarget (addTarget ⟨.DEV, 60, [], .INFO, [⟨"h", 1⟩]⟩ "h" 1).1 "h" 1 ≠
      ⟨.DEV, 60, [], .INFO, [⟨"h", 1⟩]⟩ := by decide

/-- C4 amended: `remove_target` on an absent pair is a no-op, and when
the (valid, trimmed) pair is NOT already present, `add_target` followed
by `remove_target` restores the pre-add state. -/
theorem C4_add_remove (c : AgentConfig) (host : String) (port : Int)
    (habs : ∀ t ∈ c.targets, ¬(t.host = host ∧ t.port = port)) :
    removeTarget c host port = c ∧
    (pyStrip host = host → host ≠ "" → 1 ≤ port → port ≤ 65535 →
      (addTarget c host port).2 = none ∧
      removeTarget (addTarget c host port).1 host port = c) := by
  have hfilter : c.targets.filter (fun t => !(t.host == host && t.port == port)) =
      c.targets := by
    rw [List.filter_eq_self]
    intro t ht
    have hn := habs t ht
    by_cases hh : t.host = host
    · by_cases hp2 : t.port = port
      · exact absurd ⟨hh, hp2⟩ hn
      · simp [hh, hp2]
    · simp [hh]
  constructor
  · show { c with targets := c.targets.filter _ } = c
    rw [hfilter]
  · intro h1 h2 h3 h4
    have hmk : mkTarget (.str host) (.int port) = .ok ⟨host, port⟩ :=
      @mkTarget_of_wf ⟨host, port⟩ ⟨h1, h2, h3, h4⟩
    constructor
    · show (addTarget c host port).2 = none
      unfold addTarget
      rw [hmk]
    · unfold addTarget
      rw [hmk]
      show removeTarget { c with targets := c.targets ++ [⟨host, port⟩] } host port = c
      unfold removeTarget
      have hfa : (c.targets ++ [(⟨host, port⟩ : Target)]).filter
          (fun t => !(t.host == host && t.port == port)) = c.targets := by
        rw [List.filter_append, hfilter]
        simp
      rw [hfa]

/-- Witness for C4 at a concrete configuration and pair. -/
theorem C4_add_remove_witness :
    removeTarget ⟨.DEV, 60, [], .INFO, [⟨"x", 2⟩]⟩ "h" 1 =
      ⟨.DEV, 60, [], .INFO, [⟨"x", 2⟩]⟩ ∧
    (addTarget ⟨.DEV, 60, [], .INFO, [⟨"x", 2⟩]⟩ "h" 1).2 = none ∧
    removeTarget (addTarget ⟨.DEV, 60, [], .INFO, [⟨"x", 2⟩]⟩ "h" 1).1 "h" 1 =
      ⟨.DEV, 60, [], .INFO, [⟨"x", 2⟩]⟩ := by
  have H := C4_add_remove ⟨.DEV, 60, [], .INFO, [⟨"x", 2⟩]⟩ "h" 1 (by decide)
  have H2 := H.2 (by decide) (by decide) (by decide) (by decide)
  exact ⟨H.1, H2.1, H2.2⟩

/-- C5 counterexample: a mapping with BOTH an invalid `environment` and
a malformed `targets` entry fails with the bare
`ValueError("Invalid target format: ...")` raised inside the
`from_dict` loop — a failure that does not name `environment` (or any
field), so not every failed field is reported together. -/
theorem C5_counterexample :
    (fromDict [("environment", PyVal.str "invalid_env"),
       ("targets", PyVal.list [PyVal.int 42])]).2 = .error .invalidTarget ∧
    envField [("environment", PyVal.str "invalid_env"),
       ("targets", PyVal.list [PyVal.int 42])] = none :=
  ⟨rfl, rfl⟩

/-- C5 amended: when every `targets` entry converts (or the key is
absent), any construction failure is a single ValidationError that
names every field that failed, extra keys included; but a malformed
target entry aborts `from_dict` immediately with a target-format error
naming nothing. -/
theorem C5_errors_collected (d : PyDict) (e : ConfigError)
    (hc : targetsConvertible d) (h : (fromDict d).2 = .error e) :
    ∃ errs, e = .validation errs ∧
      (envField d = none → "environment" ∈ errs) ∧
      (scanField d = none → "scan_interval" ∈ errs) ∧
      (modulesField d = none → "modules" ∈ errs) ∧
      (logField d = none → "log_level" ∈ errs) ∧
      (∀ k ∈ extraKeys d, k ∈ errs) := by
  cases hl : List.lookup "targets" d with
  | none =>
    rw [fromDict_none hl] at h
    obtain ⟨errs, herr, hval⟩ := mapError_eq_error.mp h
    refine ⟨errs, hval, ?_, ?_, ?_, ?_, ?_⟩ <;>
      rw [mkAgentConfig_error herr]
    · exact fun hf => mem_fieldErrs_env hf
    · exact fun hf => mem_fieldErrs_scan hf
    · exact fun hf => mem_fieldErrs_modules hf
    · exact fun hf => mem_fieldErrs_log hf
    · exact fun k hk => mem_fieldErrs_extra hk
  | some v =>
    obtain ⟨items, ts, hi, hcv⟩ := hc v hl
    rw [fromDict_some hl, fromDictConv_some hi, fromDictItems_ok hcv] at h
    obtain ⟨errs, herr, hval⟩ := mapError_eq_error.mp h
    refine ⟨errs, hval, ?_, ?_, ?_, ?_, ?_⟩ <;>
      rw [mkAgentConfig_error herr]
    · intro hf
      exact mem_fieldErrs_env (by rw [envField_setKey, hf])
    · intro hf
      exact mem_fieldErrs_scan (by rw [scanField_setKey, hf])
    · intro hf
      exact mem_fieldErrs_modules (by rw [modulesField_setKey, hf])
    · intro hf
      exact mem_fieldErrs_log (by rw [logField_setKey, hf])
    · intro k hk
      exact mem_fieldErrs_extra (by rw [extraKeys_setKey_targets]; exact hk)

/-- Witness for C5 at a mapping with two failing fields and a
convertible target entry. -/
theorem C5_errors_collected_witness :
    ∃ errs, ConfigError.validation ["environment", "scan_interval"] =
        ConfigError.validation errs ∧
      (envField [("environment", PyVal.str "nope"), ("scan_interval", PyVal.int 0),
         ("targets", PyVal.list [PyVal.list [PyVal.str "h", PyVal.int 2]])] = none →
        "environment" ∈ errs) ∧
      (scanField [("environment", PyVal.str "nope"), ("scan_interval", PyVal.int 0),
         ("targets", PyVal.list [PyVal.list [PyVal.str "h", PyVal.int 2]])] = none →
        "scan_interval" ∈ errs) ∧
      (modulesField [("environment", PyVal.str "nope"), ("scan_interval", PyVal.int 0),
         ("targets", PyVal.list [PyVal.list [PyVal.str "h", PyVal.int 2]])] = none →
        "modules" ∈ errs) ∧
      (logField [("environment", PyVal.str "nope"), ("scan_interval", PyVal.int 0),
         ("targets", PyVal.list [PyVal.list [PyVal.str "h", PyVal.int 2]])] = none →
        "log_level" ∈ errs) ∧
      (∀ k ∈ extraKeys [("environment", PyVal.str "nope"), ("scan_interval", PyVal.int 0),
         ("targets", PyVal.list [PyVal.list [PyVal.str "h", PyVal.int 2]])], k ∈ errs) := by
  refine C5_errors_collected _ _ ?_ rfl
  intro v hv
  cases Option.some.inj hv
  exact ⟨_, _, rfl, rfl⟩

/-- C6: `save` and `load` dispatch on the file extension: any path that
ends in neither `.json` nor `.yaml` fails with the unsupported-format
error, and for paths ending in `.json` or `.yaml` the extension check
passes (file system effects abstracted). -/
theorem C6_extension_dispatch (c : AgentConfig) (path : String) (parsed : PyDict) :
    (strEndsWith path ".json" = false → strEndsWith path ".yaml" = false →
      (save c path = .error "Unsupported file extension - must be .json or .yaml" ∧
       load path parsed =
         .error "Unsupported file extension - must be .json or .yaml")) ∧
    ((strEndsWith path ".json" = true ∨ strEndsWith path ".yaml" = true) →
      ((∃ r, save c path = .ok r) ∧ (∃ r2, load path parsed = .ok r2))) := by
  constructor
  · intro h1 h2
    unfold save load
    simp [h1, h2]
  · intro h
    by_cases hj : strEndsWith path ".json" = true
    · unfold save load
      rw [if_pos hj, if_pos hj]
      exact ⟨⟨_, rfl⟩, ⟨_, rfl⟩⟩
    · have hy : strEndsWith path ".yaml" = true := by
        rcases h with h | h
        · exact absurd h hj
        · exact h
      unfold save load
      rw [if_neg hj, if_pos hy, if_neg hj, if_pos hy]
      exact ⟨⟨_, rfl⟩, ⟨_, rfl⟩⟩

/-- Witness for C6: `save` to `x.csv` fails with the unsupported-format
error; `save` to `x.json` passes the extension check. -/
theorem C6_extension_dispatch_witness :
    save ⟨.DEV, 60, [], .INFO, []⟩ "x.csv" =
      .error "Unsupported file extension - must be .json or .yaml" ∧
    (∃ r, save ⟨.DEV, 60, [], .INFO, []⟩ "x.json" = .ok r) := by
  have H1 := (C6_extension_dispatch ⟨.DEV, 60, [], .INFO, []⟩ "x.csv" []).1
    (by decide) (by decide)
  have H2 := (C6_extension_dispatch ⟨.DEV, 60, [], .INFO, []⟩ "x.json" []).2
    (Or.inl (by decide))
  exact ⟨H1.1, H2.1⟩

/-- C7 counterexample: a mapping whose `scan_interval` is out of range
but whose `targets` also holds a malformed entry fails with the bare
target-format ValueError, which is not a ValidationError and names no
field, so the failure does not name `scan_interval`. -/
theorem C7_counterexample :
    (fromDict [("environment", PyVal.str "dev"), ("scan_interval", PyVal.int 0),
       ("targets", PyVal.list [PyVal.int 42])]).2 = .error .invalidTarget ∧
    ∀ errs, ConfigError.invalidTarget ≠ ConfigError.validation errs :=
  ⟨rfl, fun _ h => ConfigError.noConfusion h⟩

/-- C7 amended: an out-of-range integer `scan_interval` always fails
construction, and names `scan_interval` in a ValidationError whenever
the targets entries convert; replacing `scan_interval` by a boundary
value 1 or 86400 in any otherwise-valid mapping succeeds with exactly
that value; an absent `scan_interval` defaults to 60. -/
theorem C7_scan_interval (d : PyDict) (n : Int) (c : AgentConfig) :
    (List.lookup "scan_interval" d = some (.int n) →
      (n < 1 ∨ 86400 < n) →
      ((∀ c2, (fromDict d).2 ≠ .ok c2) ∧
       (targetsConvertible d →
         ∃ errs, (fromDict d).2 = .error (.validation errs) ∧
           "scan_interval" ∈ errs))) ∧
    ((fromDict d).2 = .ok c → (n = 1 ∨ n = 86400) →
      ∃ c2, (fromDict (setKey d "scan_interval" (.int n))).2 = .ok c2 ∧
        c2.scan_interval = n) ∧
    (List.lookup "scan_interval" d = none → (fromDict d).2 = .ok c →
      c.scan_interval = 60) := by
  refine ⟨?_, ?_, ?_⟩
  · intro hsc hbad
    have hsf : scanField d = none := by
      rw [scanField_of_lookup_int hsc, if_neg (by omega)]
    constructor
    · intro c2 hok
      rcases fromDict_ok_inv hok with ⟨hl, hmk⟩ | ⟨v, items, ts, hl, hi, hcv, hmk⟩
      · rw [mkAgentConfig_ok_iff] at hmk
        rw [hsf] at hmk
        exact Option.noConfusion hmk.2.1
      · rw [mkAgentConfig_ok_iff] at hmk
        rw [scanField_setKey, hsf] at hmk
        exact Option.noConfusion hmk.2.1
    · intro hc
      cases hl : List.lookup "targets" d with
      | none =>
        cases hm : mkAgentConfig d with
        | ok c0 =>
          rw [mkAgentConfig_ok_iff] at hm
          rw [hsf] at hm
          exact absurd hm.2.1 (by simp)
        | error errs =>
          refine ⟨errs, ?_, ?_⟩
          · rw [fromDict_none hl, hm]
            rfl
          · rw [mkAgentConfig_error hm]
            exact mem_fieldErrs_scan hsf
      | some v =>
        obtain ⟨items, ts, hi, hcv⟩ := hc v hl
        cases hm : mkAgentConfig (setKey d "targets" (.list (ts.map PyVal.target))) with
        | ok c0 =>
          rw [mkAgentConfig_ok_iff] at hm
          rw [scanField_setKey, hsf] at hm
          exact absurd hm.2.1 (by simp)
        | error errs =>
          refine ⟨errs, ?_, ?_⟩
          · rw [fromDict_some hl, fromDictConv_some hi, fromDictItems_ok hcv, hm]
            rfl
          · rw [mkAgentConfig_error hm]
            exact mem_fieldErrs_scan (by rw [scanField_setKey, hsf])
  · intro hok hb
    have hnr : 1 ≤ n ∧ n ≤ 86400 := by rcases hb with rfl | rfl <;> omega
    have hsf2 : scanField (setKey d "scan_interval" (.int n)) = some n := by
      rw [scanField_of_lookup_int (lookup_setKey_self d "scan_interval" (.int n)),
        if_pos hnr]
    rcases fromDict_ok_inv hok with ⟨hl, hmk⟩ | ⟨v, items, ts, hl, hi, hcv, hmk⟩
    · rw [mkAgentConfig_ok_iff] at hmk
      obtain ⟨he, hs, hm2, hlg, ht, hx⟩ := hmk
      have hl2 : List.lookup "targets" (setKey d "scan_interval" (.int n)) = none := by
        rw [lookup_setKey_ne d "scan_interval" "targets" _ (by decide), hl]
      refine ⟨⟨c.environment, n, c.modules, c.log_level, c.targets⟩, ?_, rfl⟩
      rw [fromDict_none hl2]
      rw [mapError_eq_ok, mkAgentConfig_ok_iff]
      refine ⟨?_, hsf2, ?_, ?_, ?_, ?_⟩
      · rw [envField_ext (lookup_setKey_ne d "scan_interval" "environment" _ (by decide))]
        exact he
      · rw [modulesField_ext (lookup_setKey_ne d "scan_interval" "modules" _ (by decide))]
        exact hm2
      · rw [logField_ext (lookup_setKey_ne d "scan_interval" "log_level" _ (by decide))]
        exact hlg
      · have htf : targetsField (setKey d "scan_interval" (.int n)) = targetsField d :=
          targetsField_ext (lookup_setKey_ne d "scan_interval" "targets" _ (by decide))
        rw [htf]
        exact ht
      · rw [extraKeys_setKey d "scan_interval" _ (by decide)]
        exact hx
    · rw [mkAgentConfig_ok_iff] at hmk
      obtain ⟨he, hs, hm2, hlg, ht, hx⟩ := hmk
      have hl2 : List.lookup "targets" (setKey d "scan_interval" (.int n)) = some v := by
        rw [lookup_setKey_ne d "scan_interval" "targets" _ (by decide), hl]
      refine ⟨⟨c.environment, n, c.modules, c.log_level, c.targets⟩, ?_, rfl⟩
      rw [fromDict_some hl2, fromDictConv_some hi, fromDictItems_ok hcv]
      rw [mapError_eq_ok, mkAgentConfig_ok_iff]
      refine ⟨?_, ?_, ?_, ?_, ?_, ?_⟩
      · rw [envField_setKey]
        rw [envField_ext (lookup_setKey_ne d "scan_interval" "environment" _ (by decide))]
        rw [← envField_setKey d (.list (ts.map PyVal.target))]
        exact he
      · rw [scanField_setKey]
        exact hsf2
      · rw [modulesField_setKey]
        rw [modulesField_ext (lookup_setKey_ne d "scan_interval" "modules" _ (by decide))]
        rw [← modulesField_setKey d (.list (ts.map PyVal.target))]
        exact hm2
      · rw [logField_setKey]
        rw [logField_ext (lookup_setKey_ne d "scan_interval" "log_level" _ (by decide))]
        rw [← logField_setKey d (.list (ts.map PyVal.target))]
        exact hlg
      · have htf : targetsField (setKey (setKey d "scan_interval" (.int n)) "targets"
            (.list (ts.map PyVal.target))) =
            targetsField (setKey d "targets" (.list (ts.map PyVal.target))) := by
          refine targetsField_ext ?_
          rw [lookup_setKey_self, lookup_setKey_self]
        rw [htf]
        exact ht
      · rw [extraKeys_setKey_targets, extraKeys_setKey d "scan_interval" _ (by decide)]
        rw [← extraKeys_setKey_targets d (.list (ts.map PyVal.target))]
        exact hx
  · intro hnone hok
    have hs60 : scanField d = some 60 := scanField_of_lookup_none hnone
    rcases fromDict_ok_inv hok with ⟨hl, hmk⟩ | ⟨v, items, ts, hl, hi, hcv, hmk⟩
    · rw [mkAgentConfig_ok_iff] at hmk
      have := hmk.2.1
      rw [hs60] at this
      exact (Option.some.inj this).symm
    · rw [mkAgentConfig_ok_iff] at hmk
      have := hmk.2.1
      rw [scanField_setKey, hs60] at this
      exact (Option.some.inj this).symm

/-- Witness for C7: out-of-range fails naming scan_interval; boundary
substitution succeeds; absent defaults to 60. -/
theorem C7_scan_interval_witness :
    (∀ c2, (fromDict [("environment", PyVal.str "dev"),
       ("scan_interval", PyVal.int 0)]).2 ≠ .ok c2) ∧
    (∃ errs, (fromDict [("environment", PyVal.str "dev"),
       ("scan_interval", PyVal.int 0)]).2 = .error (.validation errs) ∧
       "scan_interval" ∈ errs) ∧
    (∃ c2, (fromDict (setKey [("environment", PyVal.str "dev")]
       "scan_interval" (PyVal.int 86400))).2 = .ok c2 ∧
       c2.scan_interval = 86400) ∧
    (⟨.DEV, 60, [], .INFO, []⟩ : AgentConfig).scan_interval = 60 := by
  have H1 := (C7_scan_interval [("environment", PyVal.str "dev"),
    ("scan_interval", PyVal.int 0)] 0 ⟨.DEV, 60, [], .INFO, []⟩).1 rfl (Or.inl (by omega))
  have H2 := ((C7_scan_interval [("environment", PyVal.str "dev")] 86400
    ⟨.DEV, 60, [], .INFO, []⟩).2.1) rfl (Or.inr rfl)
  have H3 := ((C7_scan_interval [("environment", PyVal.str "dev")] 60
    ⟨.DEV, 60, [], .INFO, []⟩).2.2) rfl rfl
  exact ⟨H1.1, H1.2 (fun v hv => Option.noConfusion hv), H2, H3⟩

/-- C8: mutation is atomic: a failed `add_target` or a failed validated
field assignment leaves the configuration exactly as it was;
`remove_target` never fails and preserves validity; a failed
construction yields an error, never an instance. -/
theorem C8_atomic_mutation (c : AgentConfig) (host : String) (port : Int)
    (v w : PyVal) :
    ((addTarget c host port).2.isSome = true → (addTarget c host port).1 = c) ∧
    ((setScanInterval c v).2.isSome = true → (setScanInterval c v).1 = c) ∧
    ((setEnvironment c w).2.isSome = true → (setEnvironment c w).1 = c) ∧
    (c.Wf → (removeTarget c host port).Wf) ∧
    (∀ d e, (fromDict d).2 = .error e → ∀ c2, (fromDict d).2 ≠ .ok c2) := by
  refine ⟨?_, ?_, ?_, ?_, ?_⟩
  · unfold addTarget
    cases hmk : mkTarget (.str host) (.int port) <;> simp
  · unfold setScanInterval
    cases v <;> simp
    split <;> simp
  · unfold setEnvironment
    cases w <;> simp
    rename_i s
    cases hp : Environment.parse s <;> simp
  · intro hw
    obtain ⟨r1, r2, hm, ht⟩ := hw
    refine ⟨r1, r2, hm, ?_⟩
    intro t htm
    exact ht t (List.mem_filter.mp htm).1
  · intro d e he c2 hok
    rw [he] at hok
    exact Except.noConfusion hok

/-- Witness for C8: failing mutations at concrete inputs leave the
concrete configuration unchanged; `remove_target` preserves validity. -/
theorem C8_atomic_mutation_witness :
    (addTarget ⟨.DEV, 60, [], .INFO, []⟩ "" 0).1 = ⟨.DEV, 60, [], .INFO, []⟩ ∧
    (setScanInterval ⟨.DEV, 60, [], .INFO, []⟩ (PyVal.int 0)).1 =
      ⟨.DEV, 60, [], .INFO, []⟩ ∧
    (setEnvironment ⟨.DEV, 60, [], .INFO, []⟩ (PyVal.str "qa")).1 =
      ⟨.DEV, 60, [], .INFO, []⟩ ∧
    (removeTarget ⟨.DEV, 60, [], .INFO, []⟩ "" 0).Wf := by
  have H := C8_atomic_mutation ⟨.DEV, 60, [], .INFO, []⟩ "" 0
    (PyVal.int 0) (PyVal.str "qa")
  refine ⟨H.1 (by decide), H.2.1 (by decide), H.2.2.1 (by decide),
    H.2.2.2.1 ⟨by decide, by decide, by simp, by simp⟩⟩

/-- C9: `from_dict` mutates its argument in place: when the mapping has
a `targets` key whose entries all convert, the returned mapping holds
the constructed `Target` objects under `targets` — independently of
whether the overall construction succeeds afterwards. -/
theorem C9_from_dict_mutates (d : PyDict) (v : PyVal) (items : List PyVal)
    (ts : List Target) (hl : List.lookup "targets" d = some v)
    (hi : pyIter v = some items) (hcv : convTargets items = .ok ts) :
    (fromDict d).1 = setKey d "targets" (.list (ts.map PyVal.target)) ∧
    List.lookup "targets" (fromDict d).1 = some (.list (ts.map PyVal.target)) := by
  rw [fromDict_some hl, fromDictConv_some hi, fromDictItems_ok hcv]
  exact ⟨rfl, lookup_setKey_self d "targets" _⟩

/-- Witness for C9: the caller's mapping now carries the Target object,
even though construction failed on `environment`. -/
theorem C9_from_dict_mutates_witness :
    (fromDict [("environment", PyVal.str "nope"),
        ("targets", PyVal.list [PyVal.list [PyVal.str "h", PyVal.int 2]])]).1 =
      setKey [("environment", PyVal.str "nope"),
        ("targets", PyVal.list [PyVal.list [PyVal.str "h", PyVal.int 2]])]
        "targets" (.list [PyVal.target ⟨"h", 2⟩]) ∧
    List.lookup "targets" (fromDict [("environment", PyVal.str "nope"),
        ("targets", PyVal.list [PyVal.list [PyVal.str "h", PyVal.int 2]])]).1 =
      some (.list [PyVal.target ⟨"h", 2⟩]) ∧
    (fromDict [("environment", PyVal.str "nope"),
        ("targets", PyVal.list [PyVal.list [PyVal.str "h", PyVal.int 2]])]).2 =
      .error (.validation ["environment"]) := by
  have H := C9_from_dict_mutates
    [("environment", PyVal.str "nope"),
     ("targets", PyVal.list [PyVal.list [PyVal.str "h", PyVal.int 2]])]
    (PyVal.list [PyVal.list [PyVal.str "h", PyVal.int 2]])
    [PyVal.list [PyVal.str "h", PyVal.int 2]] [⟨"h", 2⟩] rfl rfl rfl
  exact ⟨H.1, H.2, rfl⟩

/-- C10: a mapping holding any key outside the five model fields never
constructs (extra keys are forbidden), and whenever the failure is the
collected ValidationError, the stray key is named in it. -/
theorem C10_extra_keys_rejected (d : PyDict) (k : String) (v : PyVal)
    (hin : (k, v) ∈ d) (hnot : ¬ k ∈ allowedKeys) :
    (∀ c, (fromDict d).2 ≠ .ok c) ∧
    (∀ errs, (fromDict d).2 = .error (.validation errs) → k ∈ errs) := by
  have hx : k ∈ extraKeys d := by
    unfold extraKeys
    rw [List.mem_filter]
    refine ⟨List.mem_map.mpr ⟨(k, v), hin, rfl⟩, ?_⟩
    cases hc : allowedKeys.contains k
    · rfl
    · exact absurd (List.mem_of_elem_eq_true hc) hnot
  have hxne : extraKeys d ≠ [] := fun hemp => by rw [hemp] at hx; cases hx
  constructor
  · intro c hok
    rcases fromDict_ok_inv hok with ⟨hl, hmk⟩ | ⟨v2, items, ts, hl, hi, hcv, hmk⟩
    · rw [mkAgentConfig_ok_iff] at hmk
      exact hxne hmk.2.2.2.2.2
    · rw [mkAgentConfig_ok_iff] at hmk
      have hx2 := hmk.2.2.2.2.2
      rw [extraKeys_setKey_targets] at hx2
      exact hxne hx2
  · intro errs herr
    cases hl : List.lookup "targets" d with
    | none =>
      rw [fromDict_none hl] at herr
      obtain ⟨errs0, hmk, hval⟩ := mapError_eq_error.mp herr
      have he : errs = errs0 := ConfigError.validation.inj hval
      rw [he, mkAgentConfig_error hmk]
      exact mem_fieldErrs_extra hx
    | some vv =>
      rw [fromDict_some hl] at herr
      cases hi : pyIter vv with
      | none =>
        rw [fromDictConv_none hi] at herr
        exact ConfigError.noConfusion (Except.error.inj herr)
      | some items =>
        rw [fromDictConv_some hi] at herr
        cases hcv : convTargets items with
        | error e =>
          rw [fromDictItems_error hcv] at herr
          have he := Except.error.inj herr
          rcases convTargets_error_shape hcv with rfl | ⟨fs, rfl⟩
          · exact ConfigError.noConfusion he
          · exact ConfigError.noConfusion he
        | ok ts =>
          rw [fromDictItems_ok hcv] at herr
          obtain ⟨errs0, hmk, hval⟩ := mapError_eq_error.mp herr
          have he : errs = errs0 := ConfigError.validation.inj hval
          rw [he, mkAgentConfig_error hmk]
          exact mem_fieldErrs_extra (by rw [extraKeys_setKey_targets]; exact hx)

/-- Witness for C10 at a mapping with the stray key `foo`. -/
theorem C10_extra_keys_rejected_witness :
    (∀ c, (fromDict [("environment", PyVal.str "dev"),
      ("foo", PyVal.int 1)]).2 ≠ .ok c) ∧
    (∀ errs, (fromDict [("environment", PyVal.str "dev"),
      ("foo", PyVal.int 1)]).2 = .error (.validation errs) → "foo" ∈ errs) :=
  C10_extra_keys_rejected _ "foo" (PyVal.int 1)
    (List.Mem.tail _ (List.Mem.head _)) (by decide)

end DevNet
